import Mathlib

/-!
Shallow embedding of the caching and reservation core of the isucon13 web
application (`src/webapp/rust/src/main.rs`), together with theorems checking
the natural-language specification against it.

Modelling conventions:
* `i64` values become `Int`; SQL tables become Lean lists of row structures.
* A cache instance (`moka::future::Cache`) is modelled by its contents, an
  association list `List (K × V)`; the soft capacity bound (1000 entries) is a
  performance knob with no effect on the properties below and is not modelled.
* Fallible database statements are modelled with `Except`; a panicking
  `unwrap` on a failed query is modelled as the propagated error.
* A transaction is state passing on a working copy of the database; an early
  error return drops the transaction, so the committed database is the
  original one (sqlx transactions roll back on drop).
-/

namespace Isucon13

/-! ## Generic cache model (trait `MySqlResultCache` over `moka::future::Cache`) -/

/-- Contents of one cache instance: at most one entry per key (entries are
only ever created by the miss path of `get_or_insert`). -/
abbrev CacheMap (K V : Type) := List (K × V)

/-- Reading a key from the cache contents. -/
def cacheLookup {K V : Type} [DecidableEq K] : CacheMap K V → K → Option V
  | [], _ => none
  | p :: rest, k => if p.1 = k then some p.2 else cacheLookup rest k

/-- `invalidate(&key)`: remove the entry for one key. -/
def invalidate {K V : Type} [DecidableEq K] : CacheMap K V → K → CacheMap K V
  | [], _ => []
  | p :: rest, k => if p.1 = k then invalidate rest k else p :: invalidate rest k

/-- `invalidate_all()`: clear every entry. -/
def invalidate_all {K V : Type} : CacheMap K V := []

/-- Default method `get_or_insert` of trait `MySqlResultCache`: return the
cached value on a hit; on a miss run the population function `get` (the
per-cache `self.get(tx, key)`), store its result on success, and propagate a
population failure without storing anything. -/
def get_or_insert {K V E : Type} [DecidableEq K] (get : K → Except E V)
    (c : CacheMap K V) (k : K) : Except E V × CacheMap K V :=
  match cacheLookup c k with
  | some v => (.ok v, c)
  | none =>
    match get k with
    | .ok v => (.ok v, (k, v) :: c)
    | .error e => (.error e, c)

theorem cacheLookup_invalidate_ne {K V : Type} [DecidableEq K]
    (c : CacheMap K V) (k k' : K) (h : k' ≠ k) :
    cacheLookup (invalidate c k) k' = cacheLookup c k' := by
  induction c with
  | nil => rfl
  | cons p rest ih =>
    by_cases hk : p.1 = k
    · have hkk' : ¬k = k' := fun e => h e.symm
      simp [invalidate, cacheLookup, hk, hkk', ih]
    · simp only [invalidate, if_neg hk, cacheLookup, ih]

theorem cacheLookup_invalidate_self {K V : Type} [DecidableEq K]
    (c : CacheMap K V) (k : K) :
    cacheLookup (invalidate c k) k = none := by
  induction c with
  | nil => rfl
  | cons p rest ih =>
    by_cases hk : p.1 = k
    · simpa [invalidate, hk] using ih
    · simpa [invalidate, cacheLookup, hk] using ih

theorem invalidate_of_absent {K V : Type} [DecidableEq K]
    (c : CacheMap K V) (k : K) (h : cacheLookup c k = none) :
    invalidate c k = c := by
  induction c with
  | nil => rfl
  | cons p rest ih =>
    simp only [cacheLookup] at h
    by_cases hk : p.1 = k
    · simp [hk] at h
    · simp only [if_neg hk] at h
      simp [invalidate, hk, ih h]

theorem invalidate_invalidate {K V : Type} [DecidableEq K]
    (c : CacheMap K V) (k : K) :
    invalidate (invalidate c k) k = invalidate c k := by
  induction c with
  | nil => rfl
  | cons p rest ih =>
    by_cases hk : p.1 = k
    · simp [invalidate, hk, ih]
    · simp [invalidate, hk, ih]

/-! ## Entity row and response types (structs of `main.rs`) -/

structure Theme where
  id : Int
  dark_mode : Bool
deriving DecidableEq, Repr

structure User where
  id : Int
  name : String
  display_name : Option String
  description : Option String
  theme : Theme
  icon_hash : String
deriving DecidableEq, Repr

structure Tag where
  id : Int
  name : String
deriving DecidableEq, Repr

structure LivestreamModel where
  id : Int
  user_id : Int
  title : String
  description : String
  playlist_url : String
  thumbnail_url : String
  start_at : Int
  end_at : Int
deriving DecidableEq, Repr

structure ReservationSlotModel where
  id : Int
  slot : Int
  start_at : Int
  end_at : Int
deriving DecidableEq, Repr

structure ReserveLivestreamRequest where
  tags : List Int
  title : String
  description : String
  playlist_url : String
  thumbnail_url : String
  start_at : Int
  end_at : Int
deriving DecidableEq, Repr

/-- Error taxonomy of the handlers, from `enum Error`: `BadRequest` is the
client error (HTTP 400), `InternalServerError` and propagated sqlx errors are
server errors (HTTP 500). -/
inductive HandlerError
  | badRequest
  | internalServerError
  | sqlxError
deriving DecidableEq, Repr

/-- The four process-wide cache instances held in `AppState`. -/
structure AppState where
  user_cache : CacheMap Int User
  tags_cache : CacheMap Int (List Tag)
  user_id_to_livestreams_cache : CacheMap Int (List LivestreamModel)
  livestream_cache : CacheMap Int (Option LivestreamModel)
deriving DecidableEq, Repr

/-! ## The initialize handler

`initialize_handler` runs `../sql/init.sh`, then calls `invalidate_all` on
`user_cache`, `tags_cache` and `user_id_to_livestreams_cache` (and on no other
cache), and only afterwards inspects the script's exit status, returning an
internal server error when the script failed. The script's exit status is an
input of the model; the response body is the language string. -/

def initialize_handler (state : AppState) (initScriptSucceeded : Bool) :
    AppState × Except HandlerError String :=
  let state1 : AppState :=
    { state with
        user_cache := invalidate_all
        tags_cache := invalidate_all
        user_id_to_livestreams_cache := invalidate_all }
  if initScriptSucceeded then (state1, .ok "rust")
  else (state1, .error .internalServerError)

/-! ## Database and reservation model (`reserve_livestream_handler`)

The database state holds the two tables the reservation transaction touches,
plus the `livestream_tags` join table and the auto-increment counter of
`livestreams`. -/

structure Db where
  reservation_slots : List ReservationSlotModel
  livestreams : List LivestreamModel
  livestream_tags : List (Int × Int)
  next_livestream_id : Int
deriving DecidableEq, Repr

/-- Unix timestamp of 2023-11-25 01:00:00 UTC, the value of `term_start_at`
built in the handler with `NaiveDate::from_ymd_opt(2023, 11, 25)` and
`and_hms_opt(1, 0, 0)`. -/
def term_start_at : Int := 1700874000

/-- Unix timestamp of 2024-11-25 01:00:00 UTC (`term_end_at` in the handler);
366 days after `term_start_at` because 2024 is a leap year. -/
def term_end_at : Int := 1732496400

/-- Row predicate of both the locking read
`SELECT * FROM reservation_slots WHERE start_at >= ? AND end_at <= ? FOR UPDATE`
and the decrement
`UPDATE reservation_slots SET slot = slot - 1 WHERE start_at >= ? AND end_at <= ?`,
with both placeholders bound to `req.start_at` and `req.end_at`. -/
def slotInRange (req : ReserveLivestreamRequest) (s : ReservationSlotModel) : Bool :=
  decide (req.start_at ≤ s.start_at) && decide (s.end_at ≤ req.end_at)

/-- Result set of the locking read: every slot row matching `slotInRange`. -/
def lockedSlots (db : Db) (req : ReserveLivestreamRequest) : List ReservationSlotModel :=
  db.reservation_slots.filter (slotInRange req)

/-- Capacity re-read
`SELECT slot FROM reservation_slots WHERE start_at = ? AND end_at = ?`
(`fetch_one` returns the first matching row; `none` models the row-not-found
error). This also serves as the by-key observer of a bucket's `slot` column. -/
def slotValue (db : Db) (sa ea : Int) : Option Int :=
  (db.reservation_slots.find?
    (fun s => decide (s.start_at = sa) && decide (s.end_at = ea))).map
    (fun s => s.slot)

/-- Database statements the handler can issue, recorded as a trace. -/
inductive DbOp
  | lockRead (start_at end_at : Int)
  | slotReread (start_at end_at : Int)
  | updateSlots (start_at end_at : Int)
  | insertLivestream (id : Int)
  | insertLivestreamTag (livestream_id tag_id : Int)
deriving DecidableEq, Repr

/-- The capacity-check loop `for slot in slots { ... }`: re-read each locked
slot's current capacity and abort with `BadRequest` on the first one whose
re-read value is below 1 (a vanished row makes `fetch_one` fail, a server
error). Returns the loop outcome and the re-read trace. -/
def checkSlots (db : Db) : List ReservationSlotModel → Except HandlerError Unit × List DbOp
  | [] => (.ok (), [])
  | s :: rest =>
    match slotValue db s.start_at s.end_at with
    | none => (.error .sqlxError, [.slotReread s.start_at s.end_at])
    | some count =>
      if count < 1 then (.error .badRequest, [.slotReread s.start_at s.end_at])
      else
        let r := checkSlots db rest
        (r.1, .slotReread s.start_at s.end_at :: r.2)

/-- Effect of the single decrement statement: every row matching `slotInRange`
loses one unit of `slot`; every other row is untouched. -/
def decrementSlots (db : Db) (req : ReserveLivestreamRequest) : Db :=
  { db with
      reservation_slots := db.reservation_slots.map
        (fun s => if slotInRange req s then { s with slot := s.slot - 1 } else s) }

/-- The livestream row built by the `INSERT INTO livestreams ...` statement,
with `last_insert_id` modelled by the auto-increment counter. -/
def newLivestream (db : Db) (user_id : Int) (req : ReserveLivestreamRequest) :
    LivestreamModel :=
  { id := db.next_livestream_id
    user_id := user_id
    title := req.title
    description := req.description
    playlist_url := req.playlist_url
    thumbnail_url := req.thumbnail_url
    start_at := req.start_at
    end_at := req.end_at }

/-- Database state committed by a fully successful reservation transaction:
all matching slots decremented, the livestream row and its tag rows
inserted. -/
def commitReserve (db : Db) (user_id : Int) (req : ReserveLivestreamRequest) : Db :=
  let ls := newLivestream db user_id req
  { (decrementSlots db req) with
      livestreams := db.livestreams ++ [ls]
      livestream_tags := db.livestream_tags ++ req.tags.map (fun t => (ls.id, t))
      next_livestream_id := db.next_livestream_id + 1 }

/-- Outcome of one reservation request: the committed database state after the
handler returns (equal to the input state when the transaction rolled back),
the handler's result, and the trace of statements issued against
`reservation_slots` and `livestreams`. -/
structure ReserveResult where
  db : Db
  outcome : Except HandlerError LivestreamModel
  ops : List DbOp
deriving Repr

/-- The reservation transaction of `reserve_livestream_handler`, from the
booking-window validation to `tx.commit()`. The window check compares the
`DateTime` values built from `req.start_at`/`req.end_at` against the term
bounds, which is integer comparison of the timestamps. `laterQueryFails`
injects a backing-store failure into the statements that run after the
capacity check (the insert statements and the commit); any error return drops
the sqlx transaction, which rolls it back, so the committed state is the input
state. -/
def reserve_livestream_handler (db : Db) (user_id : Int)
    (req : ReserveLivestreamRequest) (laterQueryFails : Bool) : ReserveResult :=
  if term_end_at ≤ req.start_at ∨ req.end_at ≤ term_start_at then
    ⟨db, .error .badRequest, []⟩
  else
    match checkSlots db (lockedSlots db req) with
    | (.error e, cops) =>
      ⟨db, .error e, .lockRead req.start_at req.end_at :: cops⟩
    | (.ok _, cops) =>
      if laterQueryFails then
        ⟨db, .error .sqlxError,
          .lockRead req.start_at req.end_at ::
            (cops ++ [.updateSlots req.start_at req.end_at])⟩
      else
        let ls := newLivestream db user_id req
        ⟨commitReserve db user_id req, .ok ls,
          .lockRead req.start_at req.end_at ::
            (cops ++
              [.updateSlots req.start_at req.end_at, .insertLivestream ls.id] ++
              req.tags.map (fun t => DbOp.insertLivestreamTag ls.id t))⟩

/-- Cache effect of a successful reservation, the single line
`user_id_to_livestreams_cache.invalidate(&user_id).await` of the handler:
only the requesting user's entry of that one cache instance is removed. -/
def reserveInvalidateCaches (state : AppState) (user_id : Int) : AppState :=
  { state with
      user_id_to_livestreams_cache :=
        invalidate state.user_id_to_livestreams_cache user_id }

/-- Population function of `UserIdToLivestreamsCache`:
`SELECT * FROM livestreams WHERE user_id = ?` via `fetch_all`. -/
def userIdToLivestreamsGet (db : Db) (user_id : Int) :
    Except HandlerError (List LivestreamModel) :=
  .ok (db.livestreams.filter (fun l => decide (l.user_id = user_id)))

/-- Whether an `Except` value is a success. -/
def exceptOk {E A : Type} : Except E A → Bool
  | .ok _ => true
  | .error _ => false

/-- Whether the locking read of a request's transaction returns some row of
the bucket keyed by `(sa, ea)`. -/
def locksBucket (db : Db) (req : ReserveLivestreamRequest) (sa ea : Int) : Bool :=
  (lockedSlots db req).any (fun s => decide (s.start_at = sa) && decide (s.end_at = ea))

/-- Sequential execution of whole reservation transactions (each holds its row
locks from the locking read to commit or rollback, so concurrent transactions
serialize into some such sequence). Each element is the requesting user and
the request body. The committed state of one transaction is the input of the
next; a rolled-back transaction leaves the database as it was. -/
def runReservations (db : Db) : List (Int × ReserveLivestreamRequest) → Db
  | [] => db
  | (uid, req) :: rest =>
    runReservations (reserve_livestream_handler db uid req false).db rest

/-- Number of transactions in a sequence that commit successfully and whose
locking read returned the bucket keyed by `(sa, ea)`. -/
def succCount (db : Db) (sa ea : Int) : List (Int × ReserveLivestreamRequest) → Nat
  | [] => 0
  | (uid, req) :: rest =>
    let r := reserve_livestream_handler db uid req false
    (if exceptOk r.outcome && locksBucket db req sa ea then 1 else 0) +
      succCount r.db sa ea rest

/-! ## Helper lemmas about the reservation transaction -/

theorem slotValue_decrementSlots (db : Db) (req : ReserveLivestreamRequest)
    (sa ea : Int) :
    slotValue (decrementSlots db req) sa ea =
      (slotValue db sa ea).map
        (fun c => if req.start_at ≤ sa ∧ ea ≤ req.end_at then c - 1 else c) := by
  simp only [slotValue, decrementSlots]
  induction db.reservation_slots with
  | nil => rfl
  | cons s l ih =>
    by_cases h1 : s.start_at = sa
    · by_cases h2 : s.end_at = ea
      · subst h1; subst h2
        cases hsr : slotInRange req s with
        | false =>
          have hcond : ¬(req.start_at ≤ s.start_at ∧ s.end_at ≤ req.end_at) := by
            simpa [slotInRange] using hsr
          simp [List.find?_cons, hsr, hcond]
        | true =>
          have hcond : req.start_at ≤ s.start_at ∧ s.end_at ≤ req.end_at := by
            simpa [slotInRange, and_assoc] using hsr
          simp [List.find?_cons, hsr, hcond]
      · cases hsr : slotInRange req s with
        | false => simpa [List.find?_cons, hsr, h2] using ih
        | true => simpa [List.find?_cons, hsr, h2] using ih
    · cases hsr : slotInRange req s with
      | false => simpa [List.find?_cons, hsr, h1] using ih
      | true => simpa [List.find?_cons, hsr, h1] using ih

theorem checkSlots_ok_mem (db : Db) (l : List ReservationSlotModel)
    (h : (checkSlots db l).1 = .ok ()) :
    ∀ s ∈ l, ∃ c, slotValue db s.start_at s.end_at = some c ∧ 1 ≤ c := by
  induction l with
  | nil => intro s hs; cases hs
  | cons s rest ih =>
    intro t ht
    cases hv : slotValue db s.start_at s.end_at with
    | none => simp [checkSlots, hv] at h
    | some c =>
      by_cases hc : c < 1
      · simp [checkSlots, hv, hc] at h
      · have h' : (checkSlots db rest).1 = .ok () := by
          simpa [checkSlots, hv, hc] using h
        cases ht with
        | head => exact ⟨c, hv, by omega⟩
        | tail _ ht' => exact ih h' t ht'

theorem locksBucket_iff (db : Db) (req : ReserveLivestreamRequest) (sa ea : Int)
    (c : Int) (h : slotValue db sa ea = some c) :
    locksBucket db req sa ea = true ↔ req.start_at ≤ sa ∧ ea ≤ req.end_at := by
  constructor
  · intro hl
    simp only [locksBucket, lockedSlots] at hl
    obtain ⟨s, hs, hp⟩ := List.any_eq_true.1 hl
    obtain ⟨hmem, hr⟩ := List.mem_filter.1 hs
    have hp1 : s.start_at = sa ∧ s.end_at = ea := by simpa using hp
    have hr' : req.start_at ≤ s.start_at ∧ s.end_at ≤ req.end_at := by
      simpa [slotInRange] using hr
    exact ⟨hp1.1 ▸ hr'.1, hp1.2 ▸ hr'.2⟩
  · intro hb
    simp only [slotValue] at h
    cases hfind : List.find?
        (fun s => decide (s.start_at = sa) && decide (s.end_at = ea))
        db.reservation_slots with
    | none => rw [hfind] at h; simp at h
    | some s0 =>
      have hmem := List.mem_of_find?_eq_some hfind
      have hpred := List.find?_some hfind
      have hp1 : s0.start_at = sa ∧ s0.end_at = ea := by simpa using hpred
      simp only [locksBucket, lockedSlots]
      refine List.any_eq_true.2 ⟨s0, List.mem_filter.2 ⟨hmem, ?_⟩, hpred⟩
      simp [slotInRange, hp1.1, hp1.2, hb.1, hb.2]

theorem reserve_spec (db : Db) (uid : Int) (req : ReserveLivestreamRequest) (f : Bool) :
    ((reserve_livestream_handler db uid req f).db = db ∧
      ∃ e, (reserve_livestream_handler db uid req f).outcome = .error e) ∨
    ((reserve_livestream_handler db uid req f).db = commitReserve db uid req ∧
      (reserve_livestream_handler db uid req f).outcome = .ok (newLivestream db uid req) ∧
      f = false ∧
      (checkSlots db (lockedSlots db req)).1 = .ok () ∧
      ¬(term_end_at ≤ req.start_at ∨ req.end_at ≤ term_start_at)) := by
  unfold reserve_livestream_handler
  by_cases hw : term_end_at ≤ req.start_at ∨ req.end_at ≤ term_start_at
  · left
    simp [hw]
  · rw [if_neg hw]
    cases hc : checkSlots db (lockedSlots db req) with
    | mk c1 c2 =>
      cases c1 with
      | error e => exact .inl ⟨rfl, e, rfl⟩
      | ok u =>
        cases u
        cases f with
        | true => exact .inl ⟨rfl, .sqlxError, rfl⟩
        | false => exact .inr ⟨rfl, rfl, rfl, rfl, hw⟩

theorem reserve_step_slotValue (db : Db) (uid : Int) (req : ReserveLivestreamRequest)
    (sa ea c : Int) (h : slotValue db sa ea = some c) :
    slotValue (reserve_livestream_handler db uid req false).db sa ea =
      some (if exceptOk (reserve_livestream_handler db uid req false).outcome &&
              locksBucket db req sa ea then c - 1 else c) ∧
    ((exceptOk (reserve_livestream_handler db uid req false).outcome &&
        locksBucket db req sa ea) = true → 1 ≤ c) := by
  rcases reserve_spec db uid req false with ⟨hdb, e, he⟩ | ⟨hdb, hok, _, hcs, _⟩
  · rw [hdb, he]
    simp [exceptOk, h]
  · rw [hdb, hok]
    have hslots : slotValue (commitReserve db uid req) sa ea
        = slotValue (decrementSlots db req) sa ea := rfl
    rw [hslots, slotValue_decrementSlots, h]
    cases hl : locksBucket db req sa ea with
    | false =>
      have hnb : ¬(req.start_at ≤ sa ∧ ea ≤ req.end_at) := by
        intro hb
        rw [(locksBucket_iff db req sa ea c h).2 hb] at hl
        cases hl
      simp [exceptOk, hnb]
    | true =>
      have hb := (locksBucket_iff db req sa ea c h).1 hl
      constructor
      · simp [exceptOk, hb]
      · intro _
        obtain ⟨s, hs, hp⟩ := List.any_eq_true.1
          (show (lockedSlots db req).any
              (fun s => decide (s.start_at = sa) && decide (s.end_at = ea)) = true
            from hl)
        obtain ⟨c', hv', hc'⟩ := checkSlots_ok_mem db _ hcs s hs
        have hp1 : s.start_at = sa ∧ s.end_at = ea := by simpa using hp
        rw [hp1.1, hp1.2, h] at hv'
        have : c = c' := Option.some.inj hv'
        omega

theorem runReservations_slotValue (sa ea : Int)
    (reqs : List (Int × ReserveLivestreamRequest)) :
    ∀ (db : Db) (c : Int), slotValue db sa ea = some c → 0 ≤ c →
      slotValue (runReservations db reqs) sa ea =
          some (c - (succCount db sa ea reqs : Int)) ∧
        (succCount db sa ea reqs : Int) ≤ c := by
  induction reqs with
  | nil =>
    intro db c h h0
    constructor
    · simpa [runReservations, succCount] using h
    · simpa [succCount] using h0
  | cons p rest ih =>
    intro db c h h0
    obtain ⟨uid, req⟩ := p
    obtain ⟨hval, hge⟩ := reserve_step_slotValue db uid req sa ea c h
    cases hbv : exceptOk (reserve_livestream_handler db uid req false).outcome &&
        locksBucket db req sa ea with
    | false =>
      rw [hbv, if_neg (by simp)] at hval
      obtain ⟨h1, h2⟩ := ih _ c hval h0
      refine ⟨?_, ?_⟩
      · simpa [runReservations, succCount, hbv] using h1
      · simpa [succCount, hbv] using h2
    | true =>
      have h1c : 1 ≤ c := hge hbv
      rw [hbv, if_pos rfl] at hval
      obtain ⟨h1, h2⟩ := ih _ (c - 1) hval (by omega)
      refine ⟨?_, ?_⟩
      · have harith :
            c - 1 - (succCount (reserve_livestream_handler db uid req false).db
                sa ea rest : Int) =
            c - ((1 + succCount (reserve_livestream_handler db uid req false).db
                sa ea rest : Nat) : Int) := by
          push_cast
          ring
        rw [harith] at h1
        simpa [runReservations, succCount, hbv] using h1
      · simp only [succCount, hbv, if_pos]
        push_cast
        omega

/-- Predicate in the claim's (and spec's) wording, for comparison with the
source's `slotInRange`: the bucket's half-open interval overlaps the requested
half-open interval `[start_at, end_at)`. -/
def overlapsRequestedRange (req : ReserveLivestreamRequest)
    (s : ReservationSlotModel) : Bool :=
  decide (s.start_at < req.end_at) && decide (req.start_at < s.end_at)

/-! ## Concrete data used by witnesses and counterexamples -/

def c1Livestream : LivestreamModel :=
  { id := 42, user_id := 7, title := "t", description := "d",
    playlist_url := "p", thumbnail_url := "u",
    start_at := 1700874000, end_at := 1700877600 }

def c1State : AppState :=
  { user_cache := []
    tags_cache := []
    user_id_to_livestreams_cache := []
    livestream_cache := [(42, some c1Livestream)] }

def c2Db : Db :=
  { reservation_slots := [⟨1, 1, 1700874000, 1700877600⟩]
    livestreams := []
    livestream_tags := []
    next_livestream_id := 1 }

def c2Req : ReserveLivestreamRequest :=
  { tags := [], title := "t", description := "d", playlist_url := "p",
    thumbnail_url := "u", start_at := 1700874000, end_at := 1700877600 }

def c4Slot : ReservationSlotModel :=
  { id := 1, slot := 1, start_at := 1700874000, end_at := 1700874002 }

def c4Db : Db :=
  { reservation_slots := [c4Slot]
    livestreams := []
    livestream_tags := []
    next_livestream_id := 1 }

/-- Request overlapping `c4Slot` without containing it. -/
def c4Req : ReserveLivestreamRequest :=
  { tags := [], title := "t", description := "d", playlist_url := "p",
    thumbnail_url := "u", start_at := 1700874001, end_at := 1700874003 }

/-- Request lying entirely before the booking window. -/
def c5Req : ReserveLivestreamRequest :=
  { tags := [], title := "t", description := "d", playlist_url := "p",
    thumbnail_url := "u", start_at := 1700000000, end_at := 1700874000 }

def c9State : AppState :=
  { user_cache := []
    tags_cache := [(42, [⟨1, "a"⟩, ⟨3, "c"⟩])]
    user_id_to_livestreams_cache := [(7, []), (8, [])]
    livestream_cache := [(42, some c1Livestream)] }

/-! ## Claim theorems -/

/-- Claim C1, counterexample: after a run of the initialize handler in which
the reset script succeeds, the livestream-by-id cache still holds the entry it
held before, contradicting the claim that every cache instance (including the
livestream-by-id cache) contains no entries afterwards.
`initialize_handler` only calls `invalidate_all` on `user_cache`, `tags_cache`
and `user_id_to_livestreams_cache`; `livestream_cache` is absent from the
destructured state. -/
theorem initialize_handler_keeps_livestream_cache :
    cacheLookup ((initialize_handler c1State true).1).livestream_cache 42 =
      some (some c1Livestream) := rfl

/-- Claim C1, amended: the initialize handler clears the user cache, the tags
cache and the user-id-to-livestreams cache in full, but leaves the
livestream-by-id cache exactly as it was. -/
theorem initialize_handler_clears_three_caches (state : AppState) (ok : Bool) :
    ((initialize_handler state ok).1).user_cache = [] ∧
    ((initialize_handler state ok).1).tags_cache = [] ∧
    ((initialize_handler state ok).1).user_id_to_livestreams_cache = [] ∧
    ((initialize_handler state ok).1).livestream_cache = state.livestream_cache := by
  cases ok <;> exact ⟨rfl, rfl, rfl, rfl⟩

/-- Claim C10: the `invalidate_all` calls precede the exit-status inspection,
so on a failing reset script the handler returns a server error while the user
cache, tags cache and user-id-to-livestreams cache have already been emptied. -/
theorem initialize_handler_clears_even_on_script_failure (state : AppState) :
    (initialize_handler state false).2 = .error .internalServerError ∧
    ((initialize_handler state false).1).user_cache = [] ∧
    ((initialize_handler state false).1).tags_cache = [] ∧
    ((initialize_handler state false).1).user_id_to_livestreams_cache = [] :=
  ⟨rfl, rfl, rfl, rfl⟩

/-- Claim C8: invalidating an absent key leaves the cache contents unchanged
(and the operation is total, so it returns without error), and invalidation is
idempotent. -/
theorem invalidate_absent_noop_and_idempotent {K V : Type} [DecidableEq K]
    (c : CacheMap K V) (k : K) :
    (cacheLookup c k = none → invalidate c k = c) ∧
    invalidate (invalidate c k) k = invalidate c k :=
  ⟨invalidate_of_absent c k, invalidate_invalidate c k⟩

/-- Witness for C8: a concrete cache without key 5 is unchanged by
`invalidate 5`, twice the same as once. -/
theorem invalidate_absent_noop_and_idempotent_witness :
    cacheLookup [((1 : Int), (2 : Int))] 5 = none ∧
    invalidate [((1 : Int), (2 : Int))] 5 = [(1, 2)] ∧
    invalidate (invalidate [((1 : Int), (2 : Int))] 5) 5 =
      invalidate [((1 : Int), (2 : Int))] 5 :=
  ⟨by decide,
    (invalidate_absent_noop_and_idempotent [((1 : Int), (2 : Int))] 5).1 (by decide),
    (invalidate_absent_noop_and_idempotent [((1 : Int), (2 : Int))] 5).2⟩

/-- Claim C7: when the population read during a cache miss fails, the failure
is propagated to the caller (the panicking `unwrap` inside the population
function surfaces to every waiter of `get_with`, modelled as the error result)
and the cache contents are unchanged — nothing is stored for the key. -/
theorem get_or_insert_propagates_population_failure {K V E : Type} [DecidableEq K]
    (get : K → Except E V) (c : CacheMap K V) (k : K) (e : E)
    (hmiss : cacheLookup c k = none) (hfail : get k = .error e) :
    get_or_insert get c k = (.error e, c) := by
  simp [get_or_insert, hmiss, hfail]

/-- Witness for C7 on a concrete empty cache and failing population. -/
theorem get_or_insert_propagates_population_failure_witness :
    cacheLookup ([] : CacheMap Int Int) 7 = none ∧
    get_or_insert (fun _ => (.error 3 : Except Int Int)) [] 7 = (.error 3, []) :=
  ⟨rfl, get_or_insert_propagates_population_failure
    (fun _ => (.error 3 : Except Int Int)) [] 7 3 rfl rfl⟩

/-- Claim C5: a request whose interval does not overlap the booking window at
all (start at or after the window end, or end at or before the window start)
is rejected as `BadRequest` with an empty statement trace — the locking read
is never issued, no slot row is read under lock or written — and the committed
database is the input database. -/
theorem reserve_out_of_window_rejected (db : Db) (uid : Int)
    (req : ReserveLivestreamRequest) (f : Bool)
    (h : term_end_at ≤ req.start_at ∨ req.end_at ≤ term_start_at) :
    reserve_livestream_handler db uid req f = ⟨db, .error .badRequest, []⟩ := by
  unfold reserve_livestream_handler
  rw [if_pos h]

/-- Witness for C5: a request ending exactly at the window start is rejected
without any statement being issued. -/
theorem reserve_out_of_window_rejected_witness :
    (term_end_at ≤ c5Req.start_at ∨ c5Req.end_at ≤ term_start_at) ∧
    reserve_livestream_handler c2Db 7 c5Req false =
      ⟨c2Db, .error .badRequest, []⟩ :=
  ⟨Or.inr (by decide),
    reserve_out_of_window_rejected c2Db 7 c5Req false (Or.inr (by decide))⟩

/-- Claim C3: a booking attempt is all-or-nothing. On a committed attempt
every slot row matching the candidate predicate is decremented exactly once,
every other slot row is untouched, and exactly the new livestream row is
appended; on any error — insufficient re-read capacity, a vanished slot row,
or a failure of a statement after the capacity check — the dropped transaction
rolls back and the committed database is exactly the input database; a
re-read capacity below 1 on any candidate bucket forces the error outcome. -/
theorem reserve_all_or_nothing (db : Db) (uid : Int)
    (req : ReserveLivestreamRequest) (f : Bool) :
    (∀ ls, (reserve_livestream_handler db uid req f).outcome = .ok ls →
      (reserve_livestream_handler db uid req f).db.reservation_slots =
        db.reservation_slots.map
          (fun s => if slotInRange req s then { s with slot := s.slot - 1 } else s) ∧
      (reserve_livestream_handler db uid req f).db.livestreams =
        db.livestreams ++ [ls]) ∧
    (∀ e, (reserve_livestream_handler db uid req f).outcome = .error e →
      (reserve_livestream_handler db uid req f).db = db) ∧
    (∀ s ∈ lockedSlots db req, ∀ cap, slotValue db s.start_at s.end_at = some cap →
      cap < 1 → ∃ e, (reserve_livestream_handler db uid req f).outcome = .error e) := by
  rcases reserve_spec db uid req f with ⟨hdb, e0, he⟩ | ⟨hdb, hok, _, hcs, _⟩
  · refine ⟨?_, fun e _ => hdb, fun s hs cap hv hlt => ⟨e0, he⟩⟩
    intro ls hls
    rw [he] at hls
    cases hls
  · refine ⟨?_, ?_, ?_⟩
    · intro ls hls
      rw [hok] at hls
      have hls' : newLivestream db uid req = ls := Except.ok.inj hls
      subst hls'
      rw [hdb]
      exact ⟨rfl, rfl⟩
    · intro e he'
      rw [hok] at he'
      cases he'
    · intro s hs cap hv hlt
      exfalso
      obtain ⟨c, hv', hc⟩ := checkSlots_ok_mem db _ hcs s hs
      rw [hv] at hv'
      have := Option.some.inj hv'
      omega

/-- Witness for C3: a concrete committed attempt decrements the single
matching bucket and appends the new livestream row. -/
theorem reserve_all_or_nothing_witness :
    (reserve_livestream_handler c2Db 7 c2Req false).db.reservation_slots =
      c2Db.reservation_slots.map
        (fun s => if slotInRange c2Req s then { s with slot := s.slot - 1 } else s) ∧
    (reserve_livestream_handler c2Db 7 c2Req false).db.livestreams =
      c2Db.livestreams ++ [newLivestream c2Db 7 c2Req] :=
  (reserve_all_or_nothing c2Db 7 c2Req false).1 (newLivestream c2Db 7 c2Req) rfl

/-- Claim C4, counterexample: a committed reservation whose interval overlaps
a bucket without containing it leaves that bucket undecremented: the locking
read selects buckets with `start_at >= req.start_at AND end_at <= req.end_at`
(containment), not buckets overlapping the requested range. Here the bucket
`[1700874000, 1700874002)` overlaps the request `[1700874001, 1700874003)`,
the reservation commits, and the bucket's capacity is still 1. -/
theorem reserve_overlapping_bucket_untouched :
    (reserve_livestream_handler c4Db 7 c4Req false).outcome =
      .ok (newLivestream c4Db 7 c4Req) ∧
    overlapsRequestedRange c4Req c4Slot = true ∧
    slotValue c4Db c4Slot.start_at c4Slot.end_at = some 1 ∧
    slotValue (reserve_livestream_handler c4Db 7 c4Req false).db
      c4Slot.start_at c4Slot.end_at = some 1 :=
  ⟨rfl, rfl, rfl, rfl⟩

/-- Claim C4, amended: for every committed reservation, the set of buckets
locked, capacity-checked and decremented is the set of buckets CONTAINED in
the requested range (`req.start_at ≤ slot.start_at` and
`slot.end_at ≤ req.end_at`); each such bucket is decremented exactly once by
the transaction, and every bucket not contained in the range — even one merely
overlapping it — keeps its capacity. -/
theorem reserve_decrements_exactly_contained (db : Db) (uid : Int)
    (req : ReserveLivestreamRequest) (ls : LivestreamModel)
    (hok : (reserve_livestream_handler db uid req false).outcome = .ok ls) :
    ∀ sa ea cap, slotValue db sa ea = some cap →
      (locksBucket db req sa ea = true ↔ req.start_at ≤ sa ∧ ea ≤ req.end_at) ∧
      slotValue (reserve_livestream_handler db uid req false).db sa ea =
        some (if req.start_at ≤ sa ∧ ea ≤ req.end_at then cap - 1 else cap) := by
  intro sa ea cap hv
  rcases reserve_spec db uid req false with ⟨_, e, he⟩ | ⟨hdb, _, _, _, _⟩
  · rw [he] at hok
    cases hok
  · refine ⟨locksBucket_iff db req sa ea cap hv, ?_⟩
    rw [hdb]
    have hcr : slotValue (commitReserve db uid req) sa ea
        = slotValue (decrementSlots db req) sa ea := rfl
    rw [hcr, slotValue_decrementSlots, hv]
    rfl

/-- Witness for C4's amended theorem: the single contained bucket of a
committed attempt is locked and decremented exactly once. -/
theorem reserve_decrements_exactly_contained_witness :
    slotValue c2Db 1700874000 1700877600 = some 1 ∧
    ((locksBucket c2Db c2Req 1700874000 1700877600 = true ↔
        c2Req.start_at ≤ 1700874000 ∧ (1700877600 : Int) ≤ c2Req.end_at) ∧
      slotValue (reserve_livestream_handler c2Db 7 c2Req false).db
          1700874000 1700877600 =
        some (if c2Req.start_at ≤ (1700874000 : Int) ∧
            (1700877600 : Int) ≤ c2Req.end_at then 1 - 1 else 1)) :=
  ⟨rfl, reserve_decrements_exactly_contained c2Db 7 c2Req
    (newLivestream c2Db 7 c2Req) rfl 1700874000 1700877600 1 rfl⟩

/-- Claim C2: for a bucket with initial capacity `cap0 ≥ 0`, over any sequence
of whole reservation transactions (transactions serialize on the row locks, so
any concurrent execution is some such sequence), at most `cap0` of the
attempts whose locked set contains the bucket commit, the bucket's `slot`
column never becomes negative (the final value is exactly `cap0` minus the
number of committing attempts that locked the bucket, and the same theorem
applied to every prefix bounds every intermediate state), and a transaction
that decrements the bucket observed a re-read capacity of at least 1. -/
theorem reserve_no_overbooking (db : Db) (sa ea cap0 : Int)
    (reqs : List (Int × ReserveLivestreamRequest))
    (hv : slotValue db sa ea = some cap0) (h0 : 0 ≤ cap0) :
    (succCount db sa ea reqs : Int) ≤ cap0 ∧
    slotValue (runReservations db reqs) sa ea =
      some (cap0 - (succCount db sa ea reqs : Int)) ∧
    0 ≤ cap0 - (succCount db sa ea reqs : Int) ∧
    (∀ uid req,
      (exceptOk (reserve_livestream_handler db uid req false).outcome &&
        locksBucket db req sa ea) = true → 1 ≤ cap0) := by
  obtain ⟨h1, h2⟩ := runReservations_slotValue sa ea reqs db cap0 hv h0
  exact ⟨h2, h1, by omega,
    fun uid req hb => (reserve_step_slotValue db uid req sa ea cap0 hv).2 hb⟩

/-- Witness for C2: a capacity-1 bucket and two identical booking attempts —
exactly one commits and the final capacity is 0. -/
theorem reserve_no_overbooking_witness :
    slotValue c2Db 1700874000 1700877600 = some 1 ∧
    succCount c2Db 1700874000 1700877600 [(7, c2Req), (8, c2Req)] = 1 ∧
    ((succCount c2Db 1700874000 1700877600 [(7, c2Req), (8, c2Req)] : Int) ≤ 1 ∧
      slotValue (runReservations c2Db [(7, c2Req), (8, c2Req)]) 1700874000 1700877600 =
        some (1 - (succCount c2Db 1700874000 1700877600 [(7, c2Req), (8, c2Req)] : Int))) :=
  ⟨rfl, by decide,
    (reserve_no_overbooking c2Db 1700874000 1700877600 1
      [(7, c2Req), (8, c2Req)] rfl (by decide)).1,
    ((reserve_no_overbooking c2Db 1700874000 1700877600 1
      [(7, c2Req), (8, c2Req)] rfl (by decide)).2).1⟩

/-- Claim C9: a committed reservation for user `uid` invalidates exactly the
key `uid` of the user-id-to-livestreams cache: that key's entry is gone, every
other key of that cache is unchanged, and the user cache, tags cache and
livestream-by-id cache are untouched by the invalidation; the next read of
`uid`'s livestream list misses, repopulates from the committed database, and
includes the new livestream. -/
theorem reserve_invalidation_frame (state : AppState) (db : Db) (uid : Int)
    (req : ReserveLivestreamRequest) (ls : LivestreamModel)
    (hok : (reserve_livestream_handler db uid req false).outcome = .ok ls) :
    cacheLookup (reserveInvalidateCaches state uid).user_id_to_livestreams_cache uid
      = none ∧
    (∀ k, k ≠ uid →
      cacheLookup (reserveInvalidateCaches state uid).user_id_to_livestreams_cache k =
        cacheLookup state.user_id_to_livestreams_cache k) ∧
    (reserveInvalidateCaches state uid).user_cache = state.user_cache ∧
    (reserveInvalidateCaches state uid).tags_cache = state.tags_cache ∧
    (reserveInvalidateCaches state uid).livestream_cache = state.livestream_cache ∧
    (∃ vs,
      (get_or_insert (userIdToLivestreamsGet (reserve_livestream_handler db uid req false).db)
        (reserveInvalidateCaches state uid).user_id_to_livestreams_cache uid).1 = .ok vs ∧
      ls ∈ vs) := by
  rcases reserve_spec db uid req false with ⟨_, e, he⟩ | ⟨hdb, hok', _, _, _⟩
  · rw [he] at hok
    cases hok
  · have hls : newLivestream db uid req = ls := by
      rw [hok'] at hok
      exact Except.ok.inj hok
    refine ⟨cacheLookup_invalidate_self _ _,
      fun k hk => cacheLookup_invalidate_ne _ _ _ hk, rfl, rfl, rfl, ?_⟩
    refine ⟨(reserve_livestream_handler db uid req false).db.livestreams.filter
      (fun l => decide (l.user_id = uid)), ?_, ?_⟩
    · simp [get_or_insert, cacheLookup_invalidate_self, userIdToLivestreamsGet,
        reserveInvalidateCaches]
    · rw [hdb, ← hls]
      have hlsm : (commitReserve db uid req).livestreams =
          db.livestreams ++ [newLivestream db uid req] := rfl
      rw [hlsm]
      refine List.mem_filter.2 ⟨List.mem_append_right _ ?_, ?_⟩
      · exact List.mem_singleton.2 rfl
      · simp [newLivestream]

/-- Witness for C9: concrete committed reservation by user 7; the entry for
user 7 is gone, the other user's entry and the other caches are untouched. -/
theorem reserve_invalidation_frame_witness :
    (reserve_livestream_handler c2Db 7 c2Req false).outcome =
      .ok (newLivestream c2Db 7 c2Req) ∧
    cacheLookup (reserveInvalidateCaches c9State 7).user_id_to_livestreams_cache 7
      = none ∧
    (reserveInvalidateCaches c9State 7).livestream_cache = c9State.livestream_cache :=
  ⟨rfl,
    (reserve_invalidation_frame c9State c2Db 7 c2Req (newLivestream c2Db 7 c2Req) rfl).1,
    (reserve_invalidation_frame c9State c2Db 7 c2Req
      (newLivestream c2Db 7 c2Req) rfl).2.2.2.2.1⟩

/-! ## Single-flight coalescing of `get_with` (C6)

`get_or_insert` delegates concurrent-miss coalescing to
`Cache::get_with(key, future)` of the `moka` crate, an external dependency
whose implementation is not among this repository's sources; only its
documented single-flight contract is available here, so the per-key protocol
is modelled from the spec as a small state machine over arbitrary
interleavings of callers. -/

/-- Per-key protocol state: the stored value if any, whether a population is
in flight, the callers waiting on it, how many times the population function
has been started, and the results the finished callers received (caller id
paired with the value returned to it). -/
structure FlightState (V : Type) where
  cached : Option V
  inflight : Bool
  waiters : List Nat
  popCount : Nat
  results : List (Nat × V)

/-- Modelled from the spec: one interleaving step of concurrent
`get_or_insert` calls for a single key, per the single-flight contract of the
external `get_with` (missing from the sources). A caller that arrives on a hit
returns the cached value at once; a caller that misses while a population is
in flight joins its waiters instead of starting another population; a caller
that misses with no population in flight starts the single population; when
the population completes, its value is stored and every waiter receives it. -/
inductive FlightStep {V : Type} : FlightState V → FlightState V → Prop
  | arriveHit (s : FlightState V) (i : Nat) (v : V) :
      s.cached = some v →
      FlightStep s { s with results := (i, v) :: s.results }
  | arriveJoin (s : FlightState V) (i : Nat) :
      s.cached = none → s.inflight = true →
      FlightStep s { s with waiters := i :: s.waiters }
  | arriveStart (s : FlightState V) (i : Nat) :
      s.cached = none → s.inflight = false →
      FlightStep s
        { s with inflight := true, waiters := [i], popCount := s.popCount + 1 }
  | complete (s : FlightState V) (v : V) :
      s.inflight = true →
      FlightStep s
        { s with
            cached := some v
            inflight := false
            waiters := []
            results := s.waiters.map (fun i => (i, v)) ++ s.results }

/-- The state of a key no caller has touched: no entry, no flight. -/
def coldFlight (V : Type) : FlightState V :=
  { cached := none, inflight := false, waiters := [], popCount := 0, results := [] }

/-- Protocol invariant: a flight only exists while the key is empty, the
population has run exactly once as soon as a flight started or a value exists
and never before, and every finished caller got the stored value. -/
def FlightInv {V : Type} (s : FlightState V) : Prop :=
  (s.inflight = true → s.cached = none) ∧
  s.popCount = (if s.inflight = true ∨ s.cached.isSome = true then 1 else 0) ∧
  (∀ p ∈ s.results, s.cached = some p.2)

theorem flightInv_step {V : Type} {s t : FlightState V}
    (hs : FlightInv s) (h : FlightStep s t) : FlightInv t := by
  obtain ⟨h1, h2, h3⟩ := hs
  cases h with
  | arriveHit i v hc =>
    refine ⟨h1, h2, ?_⟩
    intro p hp
    rcases List.mem_cons.1 hp with rfl | hp'
    · exact hc
    · exact h3 p hp'
  | arriveJoin i hc hf => exact ⟨h1, h2, h3⟩
  | arriveStart i hc hf =>
    refine ⟨fun _ => hc, ?_, h3⟩
    have h0 : s.popCount = 0 := by
      simp [h2, hc, hf]
    simp [h0]
  | complete v hf =>
    have hc := h1 hf
    refine ⟨?_, ?_, ?_⟩
    · intro hx
      cases hx
    · rw [h2]
      simp [hf]
    · intro p hp
      rcases List.mem_append.1 hp with hp' | hp'
      · obtain ⟨i, _, hiv⟩ := List.mem_map.1 hp'
        rw [← hiv]
      · have hfalse := h3 p hp'
        rw [hc] at hfalse
        cases hfalse

theorem flightInv_reach {V : Type} {s : FlightState V}
    (h : Relation.ReflTransGen (@FlightStep V) (coldFlight V) s) : FlightInv s := by
  induction h with
  | refl =>
    refine ⟨fun hx => rfl, rfl, ?_⟩
    intro p hp
    cases hp
  | tail _ hstep ih => exact flightInv_step ih hstep

/-- Claim C6: along any interleaving of concurrent `get_or_insert` calls on a
key that starts with no entry, the population function runs at most once; as
soon as any caller has finished it has run exactly once; and all finished
callers received equal results (the single population's value). -/
theorem get_with_single_flight {V : Type} (s : FlightState V)
    (h : Relation.ReflTransGen (@FlightStep V) (coldFlight V) s) :
    s.popCount ≤ 1 ∧
    (s.results ≠ [] → s.popCount = 1) ∧
    (∀ p ∈ s.results, ∀ q ∈ s.results, p.2 = q.2) := by
  obtain ⟨h1, h2, h3⟩ := flightInv_reach h
  refine ⟨?_, ?_, ?_⟩
  · rw [h2]
    split <;> omega
  · intro hne
    obtain ⟨p, hp⟩ := List.exists_mem_of_ne_nil s.results hne
    have hc := h3 p hp
    rw [h2, if_pos]
    right
    rw [hc]
    rfl
  · intro p hp q hq
    exact Option.some.inj ((h3 p hp).symm.trans (h3 q hq))

def flightS1 : FlightState Nat :=
  { cached := none, inflight := true, waiters := [0], popCount := 1, results := [] }

def flightS2 : FlightState Nat :=
  { cached := none, inflight := true, waiters := [1, 0], popCount := 1, results := [] }

def flightS3 : FlightState Nat :=
  { cached := some 42, inflight := false, waiters := [], popCount := 1,
    results := [(1, 42), (0, 42)] }

/-- Witness for C6: two callers race on a cold key — the first starts the
single population, the second joins it, completion hands both the value 42;
the population ran exactly once. -/
theorem get_with_single_flight_witness :
    flightS3.popCount ≤ 1 ∧ flightS3.popCount = 1 := by
  have h1 : FlightStep (coldFlight Nat) flightS1 :=
    FlightStep.arriveStart (coldFlight Nat) 0 rfl rfl
  have h2 : FlightStep flightS1 flightS2 :=
    FlightStep.arriveJoin flightS1 1 rfl rfl
  have h3 : FlightStep flightS2 flightS3 :=
    FlightStep.complete flightS2 42 rfl
  have htrace : Relation.ReflTransGen (@FlightStep Nat) (coldFlight Nat) flightS3 :=
    Relation.ReflTransGen.tail
      (Relation.ReflTransGen.tail (Relation.ReflTransGen.tail .refl h1) h2) h3
  exact ⟨(get_with_single_flight flightS3 htrace).1,
    (get_with_single_flight flightS3 htrace).2.1 (by decide)⟩

end Isucon13
